import Mathlib

/-!
Verification of the NFT-Extractor repository (extractor-alchemy.py and
retrieve-from-sheet.py) against its natural-language specification.

The Python sources are shallowly embedded below: pure string/list
manipulation is translated to executable Lean functions; network and
filesystem effects are modelled as explicit event traces parameterised by
an environment describing the outcome of each external call; regular
expression searches are translated, pattern by pattern, into equivalent
deterministic scanners (each translation is documented at its definition).
-/

namespace NFTExtractor

/-! ## Basic character and string helpers shared by both source files -/

/-- ASCII whitespace, as stripped by Python `str.strip()` and by `int()`
(the embedding is restricted to ASCII input; Python would additionally
strip non-ASCII Unicode whitespace). -/
def pyWs (c : Char) : Bool :=
  c = ' ' || c = '\t' || c = '\n' || c = '\x0d' || c = '\x0b' || c = '\x0c'

/-- Python `s.strip()` on a character list: remove leading and trailing
whitespace. -/
def stripWsList (l : List Char) : List Char :=
  ((l.dropWhile pyWs).reverse.dropWhile pyWs).reverse

/-- Python `s.strip()` (no argument): strip surrounding whitespace. -/
def pyStrip (s : String) : String :=
  String.mk (stripWsList s.data)

/-- Truthiness of an optional string in Python: `None` and `""` are falsy. -/
def strTruthy : Option String → Bool
  | some s => s ≠ ""
  | none => false

/-- The character class `[a-zA-Z0-9]` of the extension regex. -/
def isAlnum (c : Char) : Bool := c.isAlpha || c.isDigit

/-- The character class `[0-9a-fA-F]` (a hexadecimal digit). -/
def isHexDig (c : Char) : Bool :=
  c.isDigit || ('a' ≤ c && c ≤ 'f') || ('A' ≤ c && c ≤ 'F')

/-- Contiguous-sublist test on character lists. -/
def infixOf (a : List Char) : List Char → Bool
  | [] => a.isEmpty
  | c :: rest => a.isPrefixOf (c :: rest) || infixOf a rest

/-- Python substring test `a in b` for strings: `a` occurs as a
contiguous substring of `b`. -/
def strIn (a b : String) : Bool := infixOf a.data b.data

/-- Python `str.lower()` (ASCII case folding; the inputs of interest are
ASCII format tokens and MIME types). -/
def pyLower (s : String) : String := String.mk (s.data.map Char.toLower)

/-! ## Format Resolver (`extractor-alchemy.py` lines 26-72) -/

/-- The characters before the first `?`. -/
def pathChars : List Char → List Char
  | [] => []
  | c :: rest => if c = '?' then [] else c :: pathChars rest

/-- The part of the URL before the first `?`: `url.split("?")[0]`. -/
def pathOf (url : String) : String := String.mk (pathChars url.data)

/-- The trailing alphanumeric run of a path, reversed. -/
def trailRun (p : String) : List Char := p.data.reverse.takeWhile isAlnum

/-- Source: `has_extension` (lines 26-28), on the path part.
`re.search(r"\.[a-zA-Z0-9]{2,5}$", path)` succeeds exactly when the
trailing run of `[a-zA-Z0-9]` characters of `path` has length 2 to 5 and
is preceded by a literal dot: the dot of any match must sit immediately
before the trailing alphanumeric run, since every character after it up
to the end is alphanumeric and thus no later dot exists, and a shorter
candidate run would be preceded by an alphanumeric character rather than
a dot. -/
def pathHasExt (p : String) : Bool :=
  2 ≤ (trailRun p).length && (trailRun p).length ≤ 5 &&
    ((p.data.reverse.drop (trailRun p).length).head? == some '.')

def has_extension (url : String) : Bool := pathHasExt (pathOf url)

/-- The dot-suffix the specification speaks about: the final dot of the
path together with the trailing alphanumeric run after it. -/
def dotSuffix (p : String) : String := String.mk ('.' :: (trailRun p).reverse)

def neSlash (c : Char) : Bool := c ≠ '/'

def neDot (c : Char) : Bool := c ≠ '.'

def isDotChar (c : Char) : Bool := c = '.'

/-- The final `/`-separated segment of `p`, reversed (the `rfind('/')`
boundary of `posixpath.splitext`). -/
def baseRevOf (p : String) : List Char := p.data.reverse.takeWhile neSlash

/-- The part of that segment after its last dot, reversed. -/
def afterDotOf (p : String) : List Char := (baseRevOf p).takeWhile neDot

/-- Extension part of CPython `posixpath.splitext`: the suffix of `p`
starting at the last dot of its final `/`-separated segment, except that
a dot preceded only by dots at the start of that segment (a leading-dot
file such as `.bashrc`) yields no extension. -/
def splitext_ext (p : String) : String :=
  if (afterDotOf p).length = (baseRevOf p).length then ""
  else if ((baseRevOf p).drop ((afterDotOf p).length + 1)).all isDotChar then ""
  else String.mk ('.' :: (afterDotOf p).reverse)

/-- The final `/`-separated segment of the path contains a non-dot
character before its last dot — exactly the condition under which
`posixpath.splitext` yields a non-empty extension (stated over the same
expressions as `splitext_ext`). -/
def segHasNonDotBeforeLastDot (p : String) : Bool :=
  (afterDotOf p).length < (baseRevOf p).length &&
    !(((baseRevOf p).drop ((afterDotOf p).length + 1)).all isDotChar)

/-- Source: `normalize_mime` (lines 39-55). -/
def normalize_mime (fmt : String) : String :=
  let f := pyStrip (pyLower fmt)
  if !(f.data.contains '/') then
    if f = "jpg" || f = "jpeg" then "image/jpeg"
    else if f = "png" then "image/png"
    else if f = "gif" then "image/gif"
    else if f = "webp" then "image/webp"
    else if f = "svg" then "image/svg+xml"
    else if f = "bmp" then "image/bmp"
    else "image/" ++ f
  else f

/-- Model of the Python standard library `mimetypes.guess_extension`,
restricted to the image MIME types reachable from this program's format
hints; every type outside the table is mapped to `none` (standing for a
type with no mapping).  The `image/jpeg` entry is `.jpe`, the first
extension registered for that type in CPython's default table — the very
quirk `extension_from_mime` normalizes. -/
def guess_table : List (String × String) :=
  [("image/png", ".png"), ("image/gif", ".gif"), ("image/svg+xml", ".svg"),
   ("image/bmp", ".bmp"), ("image/jpeg", ".jpe")]

def guess_extension (mimeType : String) : Option String :=
  guess_table.lookup mimeType

/-- Source: the explicit override table of `extension_from_mime` (lines 59-64). -/
def mime_map : List (String × String) :=
  [("image/webp", ".webp"), ("video/webm", ".webm"),
   ("image/jpg", ".jpg"), ("image/jpeg", ".jpg")]

/-- Source: `extension_from_mime` (lines 57-72). -/
def extension_from_mime (mimeType : String) : String :=
  match mime_map.lookup mimeType with
  | some e => e
  | none =>
    match guess_extension mimeType with
    | some e => if e = ".jpe" then ".jpg" else e
    | none => ""

/-- Source: `get_extension` (lines 30-37).  `fmt = none` models the Python
default `fmt=None`; the `if fmt:` truthiness test also rejects `""`. -/
def get_extension (url : String) (fmt : Option String) : String :=
  if has_extension url then splitext_ext (pathOf url)
  else if strTruthy fmt then extension_from_mime (normalize_mime (fmt.getD ""))
  else ""

/-! ## Filename Sanitizer (`extractor-alchemy.py` lines 75-85) -/

/-- The unsafe filename characters removed by `re.sub(r'[<>:"/\\|?*]', '', name)`. -/
def badChar (c : Char) : Bool :=
  c = '<' || c = '>' || c = ':' || c = '"' || c = '/' ||
  c = '\\' || c = '|' || c = '?' || c = '*'

/-- One step of hyphen-run collapsing: prepend `c`, dropping it when both
`c` and the current head are hyphens. -/
def collapseCons (c : Char) : List Char → List Char
  | [] => [c]
  | d :: ds => if c = '-' && d = '-' then d :: ds else c :: d :: ds

/-- `re.sub(r'-+', '-', s)`: collapse every maximal run of hyphens to a
single hyphen.  Folding from the right, a hyphen followed by a hyphen is
dropped, which maps each run to one hyphen. -/
def collapseHyphens : List Char → List Char
  | [] => []
  | c :: rest => collapseCons c (collapseHyphens rest)

def isHyphen (c : Char) : Bool := c = '-'

/-- Python `name.strip('-')`: remove leading and trailing hyphens. -/
def stripHyphens (l : List Char) : List Char :=
  ((l.dropWhile isHyphen).reverse.dropWhile isHyphen).reverse

/-- The character pipeline of `sanitize_filename`: replace spaces with
hyphens, delete unsafe characters, collapse hyphen runs, strip
surrounding hyphens. -/
def sanitizeList (l : List Char) : List Char :=
  stripHyphens (collapseHyphens
    ((l.map (fun c => if c = ' ' then '-' else c)).filter (fun c => !badChar c)))

/-- Source: `sanitize_filename` (lines 75-85). -/
def sanitize_filename (name : String) : String :=
  String.mk (sanitizeList name.data)

/-- The no-adjacent-hyphens relation on neighbouring characters. -/
def HyOK (a b : Char) : Prop := ¬(a = '-' ∧ b = '-')

/-! ## Media Selector and Artifact Persister (`extractor-alchemy.py` lines 87-196)

The metadata record is the provider's JSON document; the code reads only a
handful of optional paths from it, which the structure below captures.  An
`Option` field distinguishes a missing key (`none`) from a key present
with a value (`some v`, where `v` may be empty and hence falsy). -/

/-- One element of the record's top-level `media` list. -/
structure MediaItem where
  gateway : Option String := none
  raw : Option String := none
  format : Option String := none
deriving DecidableEq

/-- The value found at `metadata.media`: either a JSON object (with its
optional `uri` and `mimeType` keys; an absent `media` key defaults to the
empty object `{}`, i.e. `dict none none`) or a non-object value, for which
the `isinstance(nested_media, dict)` test fails. -/
inductive NestedMedia where
  | dict (uri : Option String) (mimeType : Option String)
  | nonDict
deriving DecidableEq

/-- The optional paths of the raw metadata record read by
`save_all_resources` (a record whose top level or `metadata` value is not
a JSON object raises on access; those runs fall under the catch-all
exception handling modelled below by `SaveEnv.nameRaises`). -/
structure MetadataRecord where
  title : Option String := none
  media : List MediaItem := []
  metaName : Option String := none
  nestedMedia : NestedMedia := .dict none none
deriving DecidableEq

/-- Source: `prefer_alchemy_gateway` (lines 110-114). -/
def prefer_alchemy_gateway (m : MediaItem) : Option String :=
  if strTruthy m.gateway then m.gateway else m.raw

/-- The ordered list of `(url, fmt)` arguments with which
`save_all_resources` invokes `download_file` (lines 128-164): the primary
candidate from `metadata.media.uri` first, then — when thumbnail
downloading is enabled — the first top-level media item, unless its chosen
URL and the primary URL are substrings of one another (the duplicate
heuristic of lines 148-154) or the chosen URL is falsy. -/
def mediaCandidates (downloadThumbnails : Bool) (rec : MetadataRecord) :
    List (String × Option String) :=
  let primary : List (String × Option String) :=
    match rec.nestedMedia with
    | .dict uri mime =>
      if strTruthy uri then [(uri.getD "", some (mime.getD ""))] else []
    | .nonDict => []
  let thumb : List (String × Option String) :=
    if downloadThumbnails then
      match rec.media with
      | [] => []
      | item :: _ =>
        let g := prefer_alchemy_gateway item
        let isDup :=
          match rec.nestedMedia with
          | .dict uri _ =>
            strTruthy uri &&
              (match g, uri with
               | some gu, some nu =>
                 gu ≠ "" && nu ≠ "" && (strIn nu gu || strIn gu nu)
               | _, _ => false)
          | .nonDict => false
        if strTruthy g && !isDup then [(g.getD "", item.format)] else []
    else []
  primary ++ thumb

/-- Observable external actions of one `save_all_resources` call. -/
inductive Event where
  | request (url : String) (verifySsl : Bool)
  | fileWrite (path : String)
  | writeTokenJson
  | writeSimpleJson
deriving DecidableEq

/-- Outcomes of the external collaborators during one `save_all_resources`
call: which internal operations raise and which HTTP requests succeed. -/
structure SaveEnv where
  /-- An exception raised on the statements before the downloads
  (filename derivation, lines 118-126), e.g. a non-object record. -/
  nameRaises : Bool
  /-- `requests.get(url)` raises a transport exception. -/
  requestRaises : String → Bool
  /-- The response status for `url` is 200. -/
  status200 : String → Bool
  /-- Writing the full-record JSON raises (lines 167-171). -/
  tokenJsonRaises : Bool
  /-- Writing the simplified JSON raises (lines 188-193). -/
  simpleJsonRaises : Bool

/-- Source: `download_file` (lines 87-108).  Returns the external actions
performed; the function catches every exception it provokes (its whole
body is a `try`/`except`), so it always returns normally to its caller —
the `Bool` records whether an exception was caught and logged. -/
def download_file (env : SaveEnv) (url : String) (base : String)
    (fmt : Option String) : List Event × Bool :=
  if url = "" then ([], false)
  else
    let ext := get_extension url fmt
    let path := "artwork/" ++ base ++ ext
    let verify := !("https://ipfs.".data.isPrefixOf url.data)
    if env.requestRaises url then ([.request url verify], true)
    else if env.status200 url then ([.request url verify, .fileWrite path], false)
    else ([.request url verify], false)

/-- The base filename computed on lines 122-123:
`metadata.get("metadata", {}).get("name", metadata.get("title", f"token-{token_id}"))`
sanitized.  `.get` falls back only when the key is absent, not when its
value is falsy. -/
def baseFilename (rec : MetadataRecord) (tokenId : Int) : String :=
  sanitize_filename <|
    match rec.metaName with
    | some n => n
    | none =>
      match rec.title with
      | some t => t
      | none => "token-" ++ toString tokenId

/-- Source: `save_all_resources` (lines 116-196), as the trace of external
actions it attempts plus whether its outer `except` caught an exception.
The whole body runs under one `try`; `download_file` absorbs its own
failures, so only the pre-download statements and the two JSON writes can
raise, and an exception ends the trace at that point. -/
def save_all_resources (env : SaveEnv) (downloadThumbnails : Bool)
    (rec : MetadataRecord) (tokenId : Int) : List Event × Bool :=
  if env.nameRaises then ([], true)
  else
    let base := baseFilename rec tokenId
    let dls := (mediaCandidates downloadThumbnails rec).flatMap
      (fun p => (download_file env p.1 base p.2).1)
    if env.tokenJsonRaises then (dls ++ [.writeTokenJson], true)
    else if env.simpleJsonRaises then
      (dls ++ [.writeTokenJson, .writeSimpleJson], true)
    else (dls ++ [.writeTokenJson, .writeSimpleJson], false)

/-- The trace restricted to request and JSON-write attempts (dropping the
media-file writes, whose presence depends on each download's outcome). -/
def nonWriteEvents (t : List Event) : List Event :=
  t.filter fun e =>
    match e with
    | .fileWrite _ => false
    | _ => true

/-! ## Identifier Resolver (`retrieve-from-sheet.py` lines 74-113)

Each regex strategy of `parse_nft_url` is translated into a deterministic
scanner: `re.search` tries every start position from the left and returns
the first position at which the pattern matches, and within each of the
four patterns every quantifier is followed either by the end of the
pattern or by a character that cannot belong to the quantified class, so
greedy matching without backtracking is exact (justified per pattern at
its definition). -/

/-- The character class `[0-9a-fA-Fx]` of patterns 1 and 2. -/
def isHexX (c : Char) : Bool := isHexDig c || c = 'x'

/-- Match a literal prefix, then continue with `k` on the remainder. -/
def isPrefixThen (pre : List Char) (k : List Char → Option α) (l : List Char) :
    Option α :=
  if pre.isPrefixOf l then k (l.drop pre.length) else none

/-- `re.search` driver: try the matcher at each start position from the
left, returning the first success. -/
def searchList (f : List Char → Option α) : List Char → Option α
  | [] => f []
  | c :: rest =>
    match f (c :: rest) with
    | some r => some r
    | none => searchList f rest

/-- `(<cls>+)<sep>(\d+)` at the current position: the first group is the
maximal run of class characters (exact, since `sep` is not in the class),
then the separator, then a maximal non-empty digit run. -/
def grabGroups (cls : Char → Bool) (sep : Char) (l : List Char) :
    Option (String × String) :=
  let g1 := l.takeWhile cls
  if g1.isEmpty then none
  else
    match l.drop g1.length with
    | c :: rest =>
      if c = sep then
        let g2 := rest.takeWhile Char.isDigit
        if g2.isEmpty then none else some (String.mk g1, String.mk g2)
      else none
    | [] => none

/-- Pattern 1 `/assets/(?:ethereum|eth)/([0-9a-fA-Fx]+)/(\d+)` at one
position; the alternation tries `ethereum` first, then `eth`, each with
the full continuation, as the backtracking engine does. -/
def matchPat1At (l : List Char) : Option (String × String) :=
  isPrefixThen "/assets/".data
    (fun r =>
      match isPrefixThen "ethereum/".data (grabGroups isHexX '/') r with
      | some g => some g
      | none => isPrefixThen "eth/".data (grabGroups isHexX '/') r) l

/-- Pattern 2 `/token/([0-9a-fA-Fx]+):(\d+)` at one position. -/
def matchPat2At (l : List Char) : Option (String × String) :=
  isPrefixThen "/token/".data (grabGroups isHexX ':') l

/-- Pattern 3 `(0x[0-9a-fA-F]{40})[/:]+(\d+)` at one position: literal
`0x`, exactly 40 hexadecimal digits, a maximal non-empty run of `/` or
`:` (exact, since a digit is not a separator), then a maximal non-empty
digit run. -/
def matchPat3At (l : List Char) : Option (String × String) :=
  match l with
  | '0' :: 'x' :: rest =>
    let hex := rest.take 40
    if hex.length = 40 && hex.all isHexDig then
      let after := rest.drop 40
      let seps := after.takeWhile fun c => c = '/' || c = ':'
      if seps.isEmpty then none
      else
        let digs := (after.drop seps.length).takeWhile Char.isDigit
        if digs.isEmpty then none
        else some (String.mk ('0' :: 'x' :: hex), String.mk digs)
    else none
  | _ => none

/-- A separator character of `re.split(r'[,\s]+', url)`. -/
def isSepChar (c : Char) : Bool := c = ',' || pyWs c

/-- `re.split(r'[,\s]+', ...)`: split on maximal non-empty separator
runs, keeping the empty pieces that arise at the two ends. -/
def splitSep : List Char → List (List Char)
  | [] => [[]]
  | c :: rest =>
    let r := splitSep rest
    if isSepChar c then
      match rest with
      | d :: _ => if isSepChar d then r else [] :: r
      | [] => [] :: r
    else
      match r with
      | x :: xs => (c :: x) :: xs
      | [] => [[c]]

/-- Pattern 4 (lines 104-109): split the text on commas/whitespace;
`re.match(r'(0x[0-9a-fA-F]{40})', parts[0])` anchors a 0x+40-hex prefix
of the first piece, and `re.match(r'(\d+)', parts[1])` a non-empty
leading digit run of the second. -/
def matchPat4 (l : List Char) : Option (String × String) :=
  match splitSep l with
  | p0 :: p1 :: _ =>
    (match p0 with
     | '0' :: 'x' :: r =>
       let hex := r.take 40
       if hex.length = 40 && hex.all isHexDig then
         let digs := p1.takeWhile Char.isDigit
         if digs.isEmpty then none
         else some (String.mk ('0' :: 'x' :: hex), String.mk digs)
       else none
     | _ => none)
  | _ => none

/-- Source: `parse_nft_url` (lines 74-113): strip the input, return
`(None, None)` when it is empty or whitespace-only, otherwise try the
four strategies in order and return the first match. -/
def parse_nft_url (url : String) : Option String × Option String :=
  if pyStrip url = "" then (none, none)
  else
    match searchList matchPat1At (pyStrip url).data with
    | some (c, t) => (some c, some t)
    | none =>
      match searchList matchPat2At (pyStrip url).data with
      | some (c, t) => (some c, some t)
      | none =>
        match searchList matchPat3At (pyStrip url).data with
        | some (c, t) => (some c, some t)
        | none =>
          match matchPat4 (pyStrip url).data with
          | some (c, t) => (some c, some t)
          | none => (none, none)

/-! ## Batch Driver, Row mode (`retrieve-from-sheet.py` lines 131-224)

`process_rows` is modelled over the parsed CSV rows (the `csv.reader`
collaborator is external) with the metadata fetch abstracted as an oracle
`fetch : contract → token → Bool` saying whether the Alchemy call returns
a truthy record; the model returns the final
`(processed_count, skipped_count)` pair. -/

/-- Line 180: `not row or all(cell.strip() == '' for cell in row)`. -/
def rowBlank (row : List String) : Bool := row.all fun cell => pyStrip cell = ""

/-- Lines 187-194: scan the row's cells in order for the first one whose
`parse_nft_url` yields a truthy contract and token. -/
def findCell : List String → Option (String × String)
  | [] => none
  | cell :: rest =>
    if cell ≠ "" && pyStrip cell ≠ "" then
      match parse_nft_url cell with
      | (some c, some t) =>
        if c ≠ "" && t ≠ "" then some (c, t) else findCell rest
      | _ => findCell rest
    else findCell rest

/-- The `while` loop of lines 170-221: the count check runs at the top of
each iteration, blank rows and rows without a parseable identifier and
failed fetches increment `skipped`, successful fetches increment
`processed`. -/
def processLoop (fetch : String → String → Bool) (count : Option Int) :
    List (List String) → Nat → Nat → Nat × Nat
  | [], p, s => (p, s)
  | row :: rest, p, s =>
    if (match count with | some c => decide (c ≤ (p : Int)) | none => false) then
      (p, s)
    else if rowBlank row then processLoop fetch count rest p (s + 1)
    else
      match findCell row with
      | none => processLoop fetch count rest p (s + 1)
      | some (c, t) =>
        if fetch c t then processLoop fetch count rest (p + 1) s
        else processLoop fetch count rest p (s + 1)

/-- Source: `process_rows` (lines 131-224): 1-indexed `start_row` is
clamped at the first row, then the loop runs from there. -/
def process_rows (fetch : String → String → Bool) (rows : List (List String))
    (start_row : Int) (count : Option Int) : Nat × Nat :=
  let si := start_row - 1
  let si2 := if si < 0 then 0 else si
  processLoop fetch count (rows.drop si2.toNat) 0 0

/-! ## Spreadsheet URL conversion (`retrieve-from-sheet.py` lines 23-54) -/

/-- Split at the first occurrence of `c`: `(before, after)`, the second
component empty when `c` does not occur (as `urlsplit` treats a missing
`#` or `?`). -/
def breakAt (c : Char) : List Char → List Char × List Char
  | [] => ([], [])
  | x :: xs =>
    if x = c then ([], xs)
    else
      let r := breakAt c xs
      (x :: r.1, r.2)

/-- Plain split on a character, keeping empty pieces. -/
def splitOnChar (c : Char) : List Char → List (List Char)
  | [] => [[]]
  | x :: xs =>
    let r := splitOnChar c xs
    if x = c then [] :: r
    else
      match r with
      | h :: t => (x :: h) :: t
      | [] => [[x]]

/-- Model of `urllib.parse.parse_qs` restricted to queries without
percent-escapes or `+`: split on `&`, skip empty pieces, pieces without
`=`, and pieces with an empty value (the default
`keep_blank_values=False`). -/
def qsPairs (q : List Char) : List (String × String) :=
  (splitOnChar '&' q).filterMap fun seg =>
    if seg.isEmpty then none
    else if seg.contains '=' then
      let nv := breakAt '=' seg
      if nv.2.isEmpty then none else some (String.mk nv.1, String.mk nv.2)
    else none

/-- First value bound to `key`, as `parse_qs(...)['gid'][0]`. -/
def qsLookup (q : List Char) (key : String) : Option String :=
  (qsPairs q).lookup key

/-- The character class `[a-zA-Z0-9-_]` of the spreadsheet-id pattern. -/
def sheetIdClass (c : Char) : Bool := c.isAlpha || c.isDigit || c = '-' || c = '_'

/-- `/spreadsheets/d/([a-zA-Z0-9-_]+)` at one position (greedy, exact,
since the group ends the pattern). -/
def sheetIdAt : List Char → Option String :=
  isPrefixThen "/spreadsheets/d/".data fun r =>
    let g := r.takeWhile sheetIdClass
    if g.isEmpty then none else some (String.mk g)

/-- `re.search(r'/spreadsheets/d/([a-zA-Z0-9-_]+)', sheets_url)` (line 31). -/
def findSpreadsheetId (url : String) : Option String :=
  searchList sheetIdAt url.data

/-- `gid=(\d+)` at one position. -/
def fragGidAt : List Char → Option String :=
  isPrefixThen "gid=".data fun r =>
    let d := r.takeWhile Char.isDigit
    if d.isEmpty then none else some (String.mk d)

/-- `re.search(r'gid=(\d+)', fragment)` (line 49); on the empty fragment
(the falsy case of line 48) every position fails, so no separate
emptiness test is needed. -/
def fragGid (frag : List Char) : Option String := searchList fragGidAt frag

/-- Source: `convert_to_csv_url` (lines 23-54): extract the spreadsheet
id (`none` models the fatal exit of lines 32-34), take the gid from the
query string if present, then overwrite it with a fragment gid when one
matches, defaulting to `"0"`. -/
def convert_to_csv_url (sheets_url : String) : Option String :=
  match findSpreadsheetId sheets_url with
  | none => none
  | some sid =>
    let pf := breakAt '#' sheets_url.data
    let pq := breakAt '?' pf.1
    let gidQ :=
      match qsLookup pq.2 "gid" with
      | some v => v
      | none => "0"
    let gid :=
      match fragGid pf.2 with
      | some gf => gf
      | none => gidQ
    some ("https://docs.google.com/spreadsheets/d/" ++ sid
      ++ "/export?format=csv&gid=" ++ gid)

/-- The gid precedence as amended from the observed behaviour: the
fragment gid when the fragment contains `gid=<digits>`, else the
query-string gid when present, else `"0"`. -/
def gid_amended (sheets_url : String) : String :=
  match fragGid (breakAt '#' sheets_url.data).2 with
  | some gf => gf
  | none =>
    match qsLookup (breakAt '?' (breakAt '#' sheets_url.data).1).2 "gid" with
    | some v => v
    | none => "0"

/-! ## Token-id parsing and the request listener
(`extractor-alchemy.py` lines 217-245)

`parse_token_id` calls Python `int(value, 16)` for `0x`-prefixed strings
and `int(value)` otherwise, returning `None` on `ValueError`.  CPython's
`int` grammar is modelled exactly for ASCII input: optional surrounding
whitespace, an optional sign, then digits in the given base separated by
optional single underscores; base 16 additionally allows a `0x`/`0X`
prefix (and a single underscore right after it). -/

/-- Digit test for base 10 or 16 (ASCII). -/
def isDigitB (base : Nat) : Char → Bool :=
  if base = 16 then isHexDig else Char.isDigit

/-- Numeric value of an ASCII digit in either base. -/
def digitVal (c : Char) : Nat :=
  if c.isDigit then c.toNat - '0'.toNat
  else if 'a' ≤ c && c ≤ 'f' then c.toNat - 'a'.toNat + 10
  else if 'A' ≤ c && c ≤ 'F' then c.toNat - 'A'.toNat + 10
  else 0

/-- Digits continued: `("_"? digit)*`, underscores only between digits. -/
def goDigits (base : Nat) : List Char → Nat → Option Nat
  | [], acc => some acc
  | c :: rest, acc =>
    if c = '_' then
      match rest with
      | d :: rest2 =>
        if isDigitB base d then goDigits base rest2 (acc * base + digitVal d)
        else none
      | [] => none
    else if isDigitB base c then goDigits base rest (acc * base + digitVal c)
    else none

/-- The digit-group grammar `digit ("_"? digit)*`. -/
def parseDigits (base : Nat) : List Char → Option Nat
  | [] => none
  | c :: rest =>
    if isDigitB base c then goDigits base rest (digitVal c) else none

/-- After a `0x` prefix one leading underscore is allowed. -/
def hexAfterPrefix (l : List Char) : Option Nat :=
  match l with
  | [] => parseDigits 16 []
  | c :: rest => if c = '_' then parseDigits 16 rest else parseDigits 16 (c :: rest)

/-- Hex digit group with optional `0x`/`0X` prefix. -/
def hexBody : List Char → Option Nat
  | '0' :: 'x' :: rest => hexAfterPrefix rest
  | '0' :: 'X' :: rest => hexAfterPrefix rest
  | l => parseDigits 16 l

/-- Optional sign in front of the digit group. -/
def applySign (l : List Char) (body : List Char → Option Nat) : Option Int :=
  match l with
  | [] => (body []).map Int.ofNat
  | c :: rest =>
    if c = '+' then (body rest).map Int.ofNat
    else if c = '-' then (body rest).map fun n => -(n : Int)
    else (body (c :: rest)).map Int.ofNat

/-- Python `int(s, 16)` on ASCII input. -/
def pyInt16 (s : String) : Option Int :=
  applySign (stripWsList s.data) hexBody

/-- Python `int(s)` (base 10) on ASCII input. -/
def pyInt10 (s : String) : Option Int :=
  applySign (stripWsList s.data) (parseDigits 10)

/-- The numeric value of a digit string, most significant digit first. -/
def digitsVal (base : Nat) (l : List Char) : Nat :=
  l.foldl (fun acc c => acc * base + digitVal c) 0

/-- Source: `parse_token_id` (lines 217-221). -/
def parse_token_id (value : String) : Option Int :=
  if "0x".data.isPrefixOf value.data then pyInt16 value else pyInt10 value

/-- Outcome of one `do_GET` request. -/
inductive HttpOutcome where
  | ok
  | badRequest
  | crash
deriving DecidableEq

/-- Source: `do_GET` (lines 229-245), over the three query parameters.
A missing `FIRST_TOKEN_ID` makes `parse_token_id(None)` raise
`AttributeError` on `None.startswith` — not a `ValueError`, so it
propagates out of the handler (`crash`: no response is sent).  Otherwise
the request is accepted (200) when the contract parameter is truthy and
both ids parse, and rejected (400) when not. -/
def do_GET (contract firstId lastId : Option String) : HttpOutcome :=
  let lastEff :=
    match lastId with
    | some v => some v
    | none => firstId
  match firstId with
  | none => .crash
  | some f =>
    match lastEff with
    | none => .crash
    | some lv =>
      if strTruthy contract && (parse_token_id f).isSome
          && (parse_token_id lv).isSome then .ok
      else .badRequest

/-! ## Helper lemmas -/

theorem takeWhile_append_all {p : Char → Bool} {l₁ : List Char} (l₂ : List Char)
    (h : ∀ c ∈ l₁, p c = true) :
    (l₁ ++ l₂).takeWhile p = l₁ ++ l₂.takeWhile p := by
  induction l₁ with
  | nil => simp
  | cons c t ih =>
    simp only [List.cons_append,
      List.takeWhile_cons_of_pos (h c (List.mem_cons_self c t)), List.cons.injEq,
      true_and]
    exact ih fun x hx => h x (List.mem_cons_of_mem c hx)

theorem neSlash_of_isAlnum {c : Char} (h : isAlnum c = true) : neSlash c = true := by
  unfold neSlash
  simp only [decide_eq_true_eq]
  intro e; subst e; exact absurd h (by decide)

theorem neDot_of_isAlnum {c : Char} (h : isAlnum c = true) : neDot c = true := by
  unfold neDot
  simp only [decide_eq_true_eq]
  intro e; subst e; exact absurd h (by decide)

/-- Given that the character following the trailing alphanumeric run of
`l` is a dot, taking the final `/`-free segment of `l` and then its final
dot-free part yields exactly that run (everything read on the reversed
list). -/
theorem takeWhile_seg_dot (l : List Char) (rest : List Char)
    (h : l.drop (l.takeWhile isAlnum).length = '.' :: rest) :
    (l.takeWhile neSlash).takeWhile neDot = l.takeWhile isAlnum := by
  induction l with
  | nil => simp at h
  | cons c t ih =>
    by_cases hc : isAlnum c = true
    · rw [List.takeWhile_cons_of_pos hc] at h ⊢
      simp only [List.length_cons, List.drop_succ_cons] at h
      rw [List.takeWhile_cons_of_pos (neSlash_of_isAlnum hc),
        List.takeWhile_cons_of_pos (neDot_of_isAlnum hc), ih h]
    · rw [List.takeWhile_cons_of_neg hc] at h
      simp only [List.length_nil, List.drop_zero, List.cons.injEq] at h
      obtain ⟨hcd, -⟩ := h
      subst hcd
      rw [List.takeWhile_cons_of_neg hc,
        List.takeWhile_cons_of_pos (show neSlash '.' = true by decide),
        List.takeWhile_cons_of_neg (show ¬ neDot '.' = true by decide)]

/-! ## Claim theorems and witnesses -/

/-- C2, counterexample: the URL `https://x/.png` has a path ending in a
dot followed by three alphanumeric characters, so by the claim the Format
Resolver should return `.png` for every hint; the code instead returns
`""` because `os.path.splitext` assigns no extension to a basename whose
only dot is its leading character. -/
theorem C2_counterexample :
    has_extension "https://x/.png" = true ∧
    get_extension "https://x/.png" (some "gif") ≠ ".png" := by
  constructor
  · decide
  · decide

/-- C2 (amended): for every URL whose path component (the part before the
first `?`) ends in a dot followed by 2 to 5 alphanumeric characters, and
whose final `/`-separated path segment contains a non-dot character
before its last dot, the Format Resolver returns that dot-suffix as the
extension, for every value of the optional format hint. -/
theorem C2_url_extension_wins (url : String) (fmt : Option String)
    (h1 : has_extension url = true)
    (h2 : segHasNonDotBeforeLastDot (pathOf url) = true) :
    get_extension url fmt = dotSuffix (pathOf url) := by
  unfold get_extension
  rw [if_pos h1]
  unfold has_extension at h1
  generalize pathOf url = p at h1 h2 ⊢
  unfold pathHasExt at h1
  unfold segHasNonDotBeforeLastDot at h2
  simp only [Bool.and_eq_true, decide_eq_true_eq, beq_iff_eq,
    Bool.not_eq_true'] at h1 h2
  obtain ⟨⟨-, -⟩, hdot⟩ := h1
  obtain ⟨hlt, hall⟩ := h2
  obtain ⟨rest, hrest⟩ : ∃ rest,
      p.data.reverse.drop (trailRun p).length = '.' :: rest := by
    rcases hd : p.data.reverse.drop (trailRun p).length with - | ⟨c, rest⟩
    · rw [hd] at hdot; simp at hdot
    · rw [hd] at hdot
      simp only [List.head?_cons, Option.some.injEq] at hdot
      exact ⟨rest, by simp [hd, hdot]⟩
  have hseg : afterDotOf p = trailRun p :=
    takeWhile_seg_dot p.data.reverse rest hrest
  unfold splitext_ext dotSuffix
  rw [hseg] at hlt hall ⊢
  rw [if_neg (Nat.ne_of_lt hlt), if_neg (by simp [hall])]


/-- C2 witness: the amended theorem applied at the URL `https://x/a.png?x=1`
with hint `gif`, whose basename has a non-dot character before its dot. -/
theorem C2_witness :
    get_extension "https://x/a.png?x=1" (some "gif")
      = dotSuffix (pathOf "https://x/a.png?x=1") :=
  C2_url_extension_wins "https://x/a.png?x=1" (some "gif") (by decide) (by decide)

/-- C3: for every URL without a recognized path extension, the Format
Resolver maps the bare hint tokens jpg, jpeg, png, gif, webp, svg, bmp to
.jpg, .jpg, .png, .gif, .webp, .svg, .bmp respectively; whenever the
general MIME lookup yields the uncommon `.jpe` it is normalized to
`.jpg`; and a MIME type with no mapping at all yields the empty string. -/
theorem C3_mime_hint_extensions (url : String) (h : has_extension url = false) :
    get_extension url (some "jpg") = ".jpg" ∧
    get_extension url (some "jpeg") = ".jpg" ∧
    get_extension url (some "png") = ".png" ∧
    get_extension url (some "gif") = ".gif" ∧
    get_extension url (some "webp") = ".webp" ∧
    get_extension url (some "svg") = ".svg" ∧
    get_extension url (some "bmp") = ".bmp" ∧
    (∀ m, guess_extension m = some ".jpe" → extension_from_mime m = ".jpg") ∧
    (∀ m, mime_map.lookup m = none → guess_extension m = none →
      extension_from_mime m = "") := by
  refine ⟨?_, ?_, ?_, ?_, ?_, ?_, ?_, ?_, ?_⟩
  case _ => unfold get_extension; rw [if_neg (by simp [h])]; decide
  case _ => unfold get_extension; rw [if_neg (by simp [h])]; decide
  case _ => unfold get_extension; rw [if_neg (by simp [h])]; decide
  case _ => unfold get_extension; rw [if_neg (by simp [h])]; decide
  case _ => unfold get_extension; rw [if_neg (by simp [h])]; decide
  case _ => unfold get_extension; rw [if_neg (by simp [h])]; decide
  case _ => unfold get_extension; rw [if_neg (by simp [h])]; decide
  case _ =>
    intro m hm
    unfold guess_extension guess_table at hm
    simp only [List.lookup] at hm
    split at hm
    · simp at hm
    · split at hm
      · simp at hm
      · split at hm
        · simp at hm
        · split at hm
          · simp at hm
          · split at hm
            · rename_i h5
              have hme : m = "image/jpeg" := by
                simpa using h5
              subst hme; decide
            · simp at hm
  case _ =>
    intro m h1 h2
    unfold extension_from_mime
    rw [h1, h2]

/-- C3 witness: the theorem applied at the extension-free URL `""` and
at the concrete MIME types `image/jpeg` (whose general lookup yields the
`.jpe` quirk) and `application/x-unknown` (which has no mapping). -/
theorem C3_witness :
    get_extension "" (some "jpg") = ".jpg" ∧
    get_extension "" (some "webp") = ".webp" ∧
    extension_from_mime "image/jpeg" = ".jpg" ∧
    extension_from_mime "application/x-unknown" = "" := by
  have h := C3_mime_hint_extensions "" (by decide)
  exact ⟨h.1, h.2.2.2.2.1, h.2.2.2.2.2.2.2.1 "image/jpeg" (by decide),
    h.2.2.2.2.2.2.2.2 "application/x-unknown" (by decide) (by decide)⟩

/-! ### Helper lemmas for the Filename Sanitizer -/

theorem mem_collapseHyphens {c : Char} :
    ∀ {l : List Char}, c ∈ collapseHyphens l → c ∈ l := by
  intro l
  induction l with
  | nil => simp [collapseHyphens]
  | cons a t ih =>
    intro hmem
    rw [show collapseHyphens (a :: t) = collapseCons a (collapseHyphens t)
      from rfl] at hmem
    rcases hcol : collapseHyphens t with - | ⟨d, ds⟩ <;>
      rw [hcol] at hmem <;> simp only [collapseCons] at hmem
    · simp only [List.mem_singleton] at hmem
      simp [hmem]
    · split at hmem
      · exact List.mem_cons_of_mem a (ih (hcol ▸ hmem))
      · rcases List.mem_cons.mp hmem with hca | hmem'
        · simp [hca]
        · exact List.mem_cons_of_mem a (ih (hcol ▸ hmem'))

theorem chain'_collapseHyphens : ∀ (l : List Char),
    List.Chain' HyOK (collapseHyphens l) := by
  intro l
  induction l with
  | nil => simp [collapseHyphens]
  | cons a t ih =>
    rw [show collapseHyphens (a :: t) = collapseCons a (collapseHyphens t)
      from rfl]
    rcases hcol : collapseHyphens t with - | ⟨d, ds⟩ <;>
      rw [hcol] at ih <;> simp only [collapseCons]
    · exact List.chain'_singleton a
    · split
      · exact ih
      · rename_i hcond
        refine List.chain'_cons.mpr ⟨?_, ih⟩
        intro hpair
        exact hcond (by simp [hpair.1, hpair.2])

theorem collapseHyphens_eq_self {l : List Char}
    (h : List.Chain' HyOK l) : collapseHyphens l = l := by
  induction l with
  | nil => rfl
  | cons a t ih =>
    have ht : collapseHyphens t = t := ih (List.Chain'.tail h)
    rw [show collapseHyphens (a :: t) = collapseCons a (collapseHyphens t)
      from rfl, ht]
    rcases t with - | ⟨d, ds⟩
    · rfl
    · have hok : HyOK a d := (List.chain'_cons.mp h).1
      unfold HyOK at hok
      simp only [collapseCons]
      rw [if_neg (by simp only [Bool.and_eq_true, decide_eq_true_eq]; exact hok)]

theorem head?_dropWhile {p : Char → Bool} {l : List Char} {c : Char}
    (h : (l.dropWhile p).head? = some c) : p c = false := by
  induction l with
  | nil => simp at h
  | cons a t ih =>
    by_cases hp : p a = true
    · rw [List.dropWhile_cons_of_pos hp] at h
      exact ih h
    · rw [List.dropWhile_cons_of_neg hp] at h
      simp only [List.head?_cons, Option.some.injEq] at h
      subst h
      exact Bool.not_eq_true _ ▸ hp

theorem mem_stripHyphens {c : Char} {l : List Char}
    (h : c ∈ stripHyphens l) : c ∈ l := by
  unfold stripHyphens at h
  rw [List.mem_reverse] at h
  have h1 := (List.dropWhile_sublist isHyphen).mem h
  rw [List.mem_reverse] at h1
  exact (List.dropWhile_sublist isHyphen).mem h1

theorem chain'_stripHyphens {l : List Char}
    (h : List.Chain' HyOK l) : List.Chain' HyOK (stripHyphens l) := by
  unfold stripHyphens
  rw [List.chain'_reverse]
  have h1 : List.Chain' HyOK (l.dropWhile isHyphen) :=
    h.suffix (List.dropWhile_suffix isHyphen)
  have h2 : List.Chain' (flip HyOK) (l.dropWhile isHyphen).reverse :=
    (List.chain'_reverse (R := flip HyOK)).mpr h1
  exact h2.suffix (List.dropWhile_suffix isHyphen)

theorem head?_stripHyphens {l : List Char} :
    (stripHyphens l).head? ≠ some '-' := by
  intro h
  unfold stripHyphens at h
  rw [List.head?_reverse] at h
  obtain ⟨pre, hpre⟩ :=
    List.dropWhile_suffix (l := (l.dropWhile isHyphen).reverse) isHyphen
  have h2 : (l.dropWhile isHyphen).reverse.getLast? = some '-' := by
    rw [← hpre, List.getLast?_append, h]
    rfl
  rw [List.getLast?_reverse] at h2
  have := head?_dropWhile h2
  simp [isHyphen] at this

theorem getLast?_stripHyphens {l : List Char} :
    (stripHyphens l).getLast? ≠ some '-' := by
  intro h
  unfold stripHyphens at h
  rw [List.getLast?_reverse] at h
  have := head?_dropWhile h
  simp [isHyphen] at this

theorem dropWhile_isHyphen_eq_self {l : List Char} (h : l.head? ≠ some '-') :
    l.dropWhile isHyphen = l := by
  rcases l with - | ⟨a, t⟩
  · rfl
  · rw [List.dropWhile_cons_of_neg]
    simp only [isHyphen, decide_eq_true_eq]
    intro e
    subst e
    exact h rfl

theorem stripHyphens_eq_self {l : List Char}
    (h1 : l.head? ≠ some '-') (h2 : l.getLast? ≠ some '-') :
    stripHyphens l = l := by
  unfold stripHyphens
  rw [dropWhile_isHyphen_eq_self h1,
    dropWhile_isHyphen_eq_self (by rw [List.head?_reverse]; exact h2),
    List.reverse_reverse]

theorem sanitizeList_mem {l : List Char} {c : Char} (hc : c ∈ sanitizeList l) :
    badChar c = false ∧ c ≠ ' ' := by
  unfold sanitizeList at hc
  have h2 := mem_collapseHyphens (mem_stripHyphens hc)
  have h3 := List.mem_filter.mp h2
  refine ⟨by simpa using h3.2, ?_⟩
  obtain ⟨a, -, ha⟩ := List.mem_map.mp h3.1
  by_cases hsp : a = ' '
  · rw [if_pos hsp] at ha
    rw [← ha]; decide
  · rw [if_neg hsp] at ha
    rw [← ha]; exact hsp

theorem sanitizeList_chain' (l : List Char) :
    List.Chain' HyOK (sanitizeList l) :=
  chain'_stripHyphens (chain'_collapseHyphens _)

theorem sanitizeList_idem (l : List Char) :
    sanitizeList (sanitizeList l) = sanitizeList l := by
  conv_lhs => rw [sanitizeList]
  have hmap : (sanitizeList l).map (fun c => if c = ' ' then '-' else c)
      = sanitizeList l := by
    have h1 : (sanitizeList l).map (fun c => if c = ' ' then '-' else c)
        = (sanitizeList l).map id :=
      List.map_congr_left fun c hc => if_neg (sanitizeList_mem hc).2
    rw [h1, List.map_id]
  have hfil : (sanitizeList l).filter (fun c => !badChar c) = sanitizeList l :=
    List.filter_eq_self.mpr fun c hc => by simp [(sanitizeList_mem hc).1]
  rw [hmap, hfil, collapseHyphens_eq_self (sanitizeList_chain' l)]
  exact stripHyphens_eq_self head?_stripHyphens getLast?_stripHyphens

/-- C4: the Filename Sanitizer is idempotent, its output contains no
reserved filename character and no space, never two adjacent hyphens, and
neither starts nor ends with a hyphen. -/
theorem C4_sanitize_filename_props (s : String) :
    sanitize_filename (sanitize_filename s) = sanitize_filename s ∧
    (∀ c ∈ (sanitize_filename s).data, badChar c = false ∧ c ≠ ' ') ∧
    List.Chain' HyOK (sanitize_filename s).data ∧
    (sanitize_filename s).data.head? ≠ some '-' ∧
    (sanitize_filename s).data.getLast? ≠ some '-' := by
  refine ⟨?_, ?_, ?_, ?_, ?_⟩
  · show String.mk (sanitizeList (String.mk (sanitizeList s.data)).data)
      = String.mk (sanitizeList s.data)
    rw [show (String.mk (sanitizeList s.data)).data = sanitizeList s.data
      from rfl, sanitizeList_idem]
  · exact fun c hc => sanitizeList_mem hc
  · exact sanitizeList_chain' s.data
  · exact head?_stripHyphens
  · exact getLast?_stripHyphens

/-- C4 witness: the theorem applied at the concrete name `a  b?`, whose
sanitized form is `a-b`, discharging the membership hypothesis at the
character `a`. -/
theorem C4_witness :
    sanitize_filename (sanitize_filename "a  b?") = sanitize_filename "a  b?" ∧
    (badChar 'a' = false ∧ 'a' ≠ ' ') ∧
    (sanitize_filename "a  b?").data.head? ≠ some '-' := by
  obtain ⟨h1, h2, h3, h4, h5⟩ := C4_sanitize_filename_props "a  b?"
  exact ⟨h1, h2 'a' (by decide), h4⟩

/-! ### Media Selector and Artifact Persister: claims C1, C8, C9 -/

/-- C1: whenever a record has both a Primary candidate (non-empty nested
`metadata.media.uri`) and a Thumbnail candidate (non-empty top-level
media list whose chosen URL is truthy), with thumbnail downloading
enabled, the substring heuristic decides: if either URL is a substring of
the other only the Primary candidate is downloaded; otherwise both are,
Primary first. -/
theorem C1_duplicate_suppression (rec : MetadataRecord) (uri : String)
    (mime : Option String) (item : MediaItem) (rest : List MediaItem)
    (g : String)
    (hn : rec.nestedMedia = NestedMedia.dict (some uri) mime)
    (hu : uri ≠ "")
    (hm : rec.media = item :: rest)
    (hg : prefer_alchemy_gateway item = some g)
    (hge : g ≠ "") :
    ((strIn uri g || strIn g uri) = true →
      mediaCandidates true rec = [(uri, some (mime.getD ""))]) ∧
    ((strIn uri g || strIn g uri) = false →
      mediaCandidates true rec
        = [(uri, some (mime.getD "")), (g, item.format)]) := by
  constructor <;> intro hdup <;>
    simp [mediaCandidates, hn, hm, hg, strTruthy, hu, hge, hdup]

/-- C1 witness: the specification's own example (thumbnail equal to the
primary URL is suppressed) and its contrasting distinct-URL example. -/
theorem C1_witness :
    mediaCandidates true
      { nestedMedia := NestedMedia.dict (some "https://x/a.png") none,
        media := [{ gateway := some "https://x/a.png" }] }
      = [("https://x/a.png", some "")] ∧
    mediaCandidates true
      { nestedMedia := NestedMedia.dict (some "https://x/a.png") none,
        media := [{ gateway := some "https://y/b.jpg" }] }
      = [("https://x/a.png", some ""), ("https://y/b.jpg", none)] := by
  constructor
  · exact (C1_duplicate_suppression
      { nestedMedia := NestedMedia.dict (some "https://x/a.png") none,
        media := [{ gateway := some "https://x/a.png" }] }
      "https://x/a.png" none { gateway := some "https://x/a.png" } []
      "https://x/a.png" rfl (by decide) rfl (by decide) (by decide)).1 (by decide)
  · exact (C1_duplicate_suppression
      { nestedMedia := NestedMedia.dict (some "https://x/a.png") none,
        media := [{ gateway := some "https://y/b.jpg" }] }
      "https://x/a.png" none { gateway := some "https://y/b.jpg" } []
      "https://y/b.jpg" rfl (by decide) rfl (by decide) (by decide)).2 (by decide)

theorem nonWriteEvents_download_file (env : SaveEnv) (url base : String)
    (fmt : Option String) :
    nonWriteEvents (download_file env url base fmt).1
      = if url = "" then []
        else [Event.request url (!("https://ipfs.".data.isPrefixOf url.data))] := by
  unfold download_file nonWriteEvents
  split
  · rfl
  · split
    · rfl
    · split <;> rfl

theorem writeJson_not_mem_download_file (env : SaveEnv) (url base : String)
    (fmt : Option String) :
    Event.writeTokenJson ∉ (download_file env url base fmt).1 ∧
    Event.writeSimpleJson ∉ (download_file env url base fmt).1 := by
  unfold download_file
  split
  · simp
  · split
    · simp
    · split <;> simp

theorem nonWriteEvents_dls (env env2 : SaveEnv) (base : String)
    (cands : List (String × Option String)) :
    nonWriteEvents (cands.flatMap fun p => (download_file env p.1 base p.2).1)
      = nonWriteEvents (cands.flatMap fun p => (download_file env2 p.1 base p.2).1) := by
  induction cands with
  | nil => rfl
  | cons c cs ih =>
    simp only [List.flatMap_cons]
    unfold nonWriteEvents at ih ⊢
    rw [List.filter_append, List.filter_append]
    rw [show ((download_file env c.1 base c.2).1.filter fun e =>
        match e with | .fileWrite _ => false | _ => true)
      = nonWriteEvents (download_file env c.1 base c.2).1 from rfl]
    rw [show ((download_file env2 c.1 base c.2).1.filter fun e =>
        match e with | .fileWrite _ => false | _ => true)
      = nonWriteEvents (download_file env2 c.1 base c.2).1 from rfl]
    rw [nonWriteEvents_download_file, nonWriteEvents_download_file, ih]

/-- C8: the per-token persisting operation always returns normally (its
flag records exactly whether one of the three raise points fired, and
download failures never contribute); the attempted requests and JSON
writes do not depend on any download outcome; an exception before the
downloads yields an empty trace; and an exception while writing the full
JSON record stops the simplified JSON write (later steps do not run),
though the write of the full JSON was itself attempted. -/
theorem C8_save_never_propagates (env env2 : SaveEnv) (dt : Bool)
    (rec : MetadataRecord) (tokenId : Int) :
    ((save_all_resources env dt rec tokenId).2
        = (env.nameRaises || env.tokenJsonRaises || env.simpleJsonRaises)) ∧
    (env.nameRaises = env2.nameRaises →
      env.tokenJsonRaises = env2.tokenJsonRaises →
      env.simpleJsonRaises = env2.simpleJsonRaises →
      nonWriteEvents (save_all_resources env dt rec tokenId).1
        = nonWriteEvents (save_all_resources env2 dt rec tokenId).1) ∧
    (env.nameRaises = true → (save_all_resources env dt rec tokenId).1 = []) ∧
    (env.nameRaises = false → env.tokenJsonRaises = true →
      Event.writeTokenJson ∈ (save_all_resources env dt rec tokenId).1 ∧
      Event.writeSimpleJson ∉ (save_all_resources env dt rec tokenId).1) := by
  refine ⟨?_, ?_, ?_, ?_⟩
  · unfold save_all_resources
    rcases hn : env.nameRaises with - | -
    · rcases ht : env.tokenJsonRaises with - | -
      · rcases hs : env.simpleJsonRaises with - | - <;> simp [hn, ht, hs]
      · simp [hn, ht]
    · simp [hn]
  · intro h1 h2 h3
    have key := nonWriteEvents_dls env env2 (baseFilename rec tokenId)
      (mediaCandidates dt rec)
    unfold save_all_resources
    rw [← h1, ← h2, ← h3]
    rcases hn : env.nameRaises with - | -
    · rcases ht : env.tokenJsonRaises with - | -
      · rcases hs : env.simpleJsonRaises with - | - <;>
          · simp only [hn, ht, hs, Bool.false_eq_true, if_false, if_true]
            unfold nonWriteEvents at key ⊢
            rw [List.filter_append, List.filter_append, key]
      · simp only [hn, ht, Bool.false_eq_true, if_false, if_true]
        unfold nonWriteEvents at key ⊢
        rw [List.filter_append, List.filter_append, key]
    · simp [hn]
  · intro h
    unfold save_all_resources
    simp [h]
  · intro h1 h2
    unfold save_all_resources
    simp only [h1, h2, Bool.false_eq_true, if_false, if_true]
    constructor
    · exact List.mem_append_right _ (List.mem_singleton.mpr rfl)
    · intro hmem
      rcases List.mem_append.mp hmem with hin | hin
      · obtain ⟨p, -, hp⟩ := List.mem_flatMap.mp hin
        exact (writeJson_not_mem_download_file env p.1
          (baseFilename rec tokenId) p.2).2 hp
      · simp at hin

/-- C8 witness: concrete instantiation in which every download raises in
one environment and succeeds in the other, while the name derivation and
both JSON writes behave identically; the attempted requests and JSON
writes coincide, the trace is empty when the pre-download code raises,
and a token-JSON failure suppresses the simplified write. -/
theorem C8_witness :
    (save_all_resources
      { nameRaises := false, requestRaises := fun _ => true,
        status200 := fun _ => false, tokenJsonRaises := false,
        simpleJsonRaises := false } true
      { title := some "Cool", media := [{ gateway := some "https://h/i.png" }] }
      1).2 = false ∧
    nonWriteEvents (save_all_resources
      { nameRaises := false, requestRaises := fun _ => true,
        status200 := fun _ => false, tokenJsonRaises := false,
        simpleJsonRaises := false } true
      { title := some "Cool", media := [{ gateway := some "https://h/i.png" }] }
      1).1
      = nonWriteEvents (save_all_resources
      { nameRaises := false, requestRaises := fun _ => false,
        status200 := fun _ => true, tokenJsonRaises := false,
        simpleJsonRaises := false } true
      { title := some "Cool", media := [{ gateway := some "https://h/i.png" }] }
      1).1 ∧
    (save_all_resources
      { nameRaises := true, requestRaises := fun _ => false,
        status200 := fun _ => true, tokenJsonRaises := false,
        simpleJsonRaises := false } true
      { title := some "Cool", media := [{ gateway := some "https://h/i.png" }] }
      1).1 = [] ∧
    Event.writeSimpleJson ∉ (save_all_resources
      { nameRaises := false, requestRaises := fun _ => false,
        status200 := fun _ => true, tokenJsonRaises := true,
        simpleJsonRaises := false } true
      { title := some "Cool", media := [{ gateway := some "https://h/i.png" }] }
      1).1 := by
  refine ⟨?_, ?_, ?_, ?_⟩
  · exact (C8_save_never_propagates
      { nameRaises := false, requestRaises := fun _ => true,
        status200 := fun _ => false, tokenJsonRaises := false,
        simpleJsonRaises := false }
      { nameRaises := false, requestRaises := fun _ => true,
        status200 := fun _ => false, tokenJsonRaises := false,
        simpleJsonRaises := false } true
      { title := some "Cool", media := [{ gateway := some "https://h/i.png" }] }
      1).1
  · exact ((C8_save_never_propagates
      { nameRaises := false, requestRaises := fun _ => true,
        status200 := fun _ => false, tokenJsonRaises := false,
        simpleJsonRaises := false }
      { nameRaises := false, requestRaises := fun _ => false,
        status200 := fun _ => true, tokenJsonRaises := false,
        simpleJsonRaises := false } true
      { title := some "Cool", media := [{ gateway := some "https://h/i.png" }] }
      1).2.1 rfl rfl rfl)
  · exact (C8_save_never_propagates
      { nameRaises := true, requestRaises := fun _ => false,
        status200 := fun _ => true, tokenJsonRaises := false,
        simpleJsonRaises := false }
      { nameRaises := true, requestRaises := fun _ => false,
        status200 := fun _ => true, tokenJsonRaises := false,
        simpleJsonRaises := false } true
      { title := some "Cool", media := [{ gateway := some "https://h/i.png" }] }
      1).2.2.1 rfl
  · exact ((C8_save_never_propagates
      { nameRaises := false, requestRaises := fun _ => false,
        status200 := fun _ => true, tokenJsonRaises := true,
        simpleJsonRaises := false }
      { nameRaises := false, requestRaises := fun _ => false,
        status200 := fun _ => true, tokenJsonRaises := true,
        simpleJsonRaises := false } true
      { title := some "Cool", media := [{ gateway := some "https://h/i.png" }] }
      1).2.2.2 rfl rfl).2

/-- C9: called with an empty (falsy) URL, `download_file` returns at once:
its trace holds no request and no file write, so the filesystem is
untouched, and no exception is logged. -/
theorem C9_download_file_empty_url (env : SaveEnv) (base : String)
    (fmt : Option String) :
    download_file env "" base fmt = ([], false) := rfl

/-! ### Identifier Resolver: claim C5 -/

/-- C5: the Identifier Resolver tries the four pattern strategies in
fixed priority order and returns the first strategy's match; it returns
`(None, None)` when the input is empty or whitespace-only and when no
strategy matches; side effects: the embedding is a pure function of the
input (the only I/O in the source is the warning log line on failure). -/
theorem C5_parse_nft_url_strategy_order (url : String) :
    (pyStrip url = "" → parse_nft_url url = (none, none)) ∧
    (∀ c t, searchList matchPat1At (pyStrip url).data = some (c, t) →
      parse_nft_url url = (some c, some t)) ∧
    (searchList matchPat1At (pyStrip url).data = none →
      ∀ c t, searchList matchPat2At (pyStrip url).data = some (c, t) →
        parse_nft_url url = (some c, some t)) ∧
    (searchList matchPat1At (pyStrip url).data = none →
      searchList matchPat2At (pyStrip url).data = none →
      ∀ c t, searchList matchPat3At (pyStrip url).data = some (c, t) →
        parse_nft_url url = (some c, some t)) ∧
    (searchList matchPat1At (pyStrip url).data = none →
      searchList matchPat2At (pyStrip url).data = none →
      searchList matchPat3At (pyStrip url).data = none →
      ∀ c t, matchPat4 (pyStrip url).data = some (c, t) →
        parse_nft_url url = (some c, some t)) ∧
    (searchList matchPat1At (pyStrip url).data = none →
      searchList matchPat2At (pyStrip url).data = none →
      searchList matchPat3At (pyStrip url).data = none →
      matchPat4 (pyStrip url).data = none →
      parse_nft_url url = (none, none)) := by
  by_cases hs : pyStrip url = ""
  · have hnil : (pyStrip url).data = [] := by rw [hs]
    have e1 : searchList matchPat1At ([] : List Char) = none := rfl
    have e2 : searchList matchPat2At ([] : List Char) = none := rfl
    have e3 : searchList matchPat3At ([] : List Char) = none := rfl
    have e4 : matchPat4 ([] : List Char) = none := rfl
    refine ⟨fun _ => by simp [parse_nft_url, hs], ?_, ?_, ?_, ?_, ?_⟩
    · intro c t h
      rw [hnil, e1] at h; cases h
    · intro h1 c t h
      rw [hnil, e2] at h; cases h
    · intro h1 h2 c t h
      rw [hnil, e3] at h; cases h
    · intro h1 h2 h3 c t h
      rw [hnil, e4] at h; cases h
    · intro h1 h2 h3 h4
      simp [parse_nft_url, hs]
  · refine ⟨fun h => absurd h hs, ?_, ?_, ?_, ?_, ?_⟩
    · intro c t h
      unfold parse_nft_url
      rw [if_neg hs, h]
    · intro h1 c t h2
      unfold parse_nft_url
      rw [if_neg hs, h1, h2]
    · intro h1 h2 c t h3
      unfold parse_nft_url
      rw [if_neg hs, h1, h2, h3]
    · intro h1 h2 h3 c t h4
      unfold parse_nft_url
      rw [if_neg hs, h1, h2, h3, h4]
    · intro h1 h2 h3 h4
      unfold parse_nft_url
      rw [if_neg hs, h1, h2, h3, h4]

/-- C5 witness: the theorem applied to the empty input and to a concrete
marketplace URL on which the first strategy fires. -/
theorem C5_witness :
    parse_nft_url "" = (none, none) ∧
    parse_nft_url
      "https://opensea.io/assets/ethereum/0xb932a70a57673d89f4acffbe830e8ed7f75fb9e0/29934"
      = (some "0xb932a70a57673d89f4acffbe830e8ed7f75fb9e0", some "29934") := by
  constructor
  · exact (C5_parse_nft_url_strategy_order "").1 (by decide)
  · exact (C5_parse_nft_url_strategy_order
      "https://opensea.io/assets/ethereum/0xb932a70a57673d89f4acffbe830e8ed7f75fb9e0/29934").2.1
      "0xb932a70a57673d89f4acffbe830e8ed7f75fb9e0" "29934" (by decide)

/-! ### Batch Driver, Row mode: claim C6 -/

theorem processLoop_stop (fetch : String → String → Bool) (c : Int)
    (rows : List (List String)) (p s : Nat) (h : c ≤ (p : Int)) :
    processLoop fetch (some c) rows p s = (p, s) := by
  cases rows with
  | nil => rfl
  | cons r rest => simp [processLoop, h]

theorem processLoop_processed_le (fetch : String → String → Bool) (c : Int) :
    ∀ (rows : List (List String)) (p s : Nat),
      ((processLoop fetch (some c) rows p s).1 : Int) ≤ max (p : Int) c := by
  intro rows
  induction rows with
  | nil => intro p s; exact le_max_left _ _
  | cons r rest ih =>
    intro p s
    by_cases hc : c ≤ (p : Int)
    · rw [processLoop_stop fetch c (r :: rest) p s hc]
      exact le_max_left _ _
    · have hlt : (p : Int) + 1 ≤ c := by omega
      have hstep : ∀ p' s' : Nat, p' = p ∨ p' = p + 1 →
          ((processLoop fetch (some c) rest p' s').1 : Int) ≤ max (p : Int) c := by
        intro p' s' hp
        refine le_trans (ih p' s') (max_le ?_ (le_max_right _ _))
        rcases hp with hp | hp <;> subst hp
        · exact le_max_left _ _
        · push_cast
          exact le_trans hlt (le_max_right _ _)
      unfold processLoop
      rw [if_neg (by simp [hc])]
      by_cases hb : rowBlank r = true
      · rw [if_pos hb]
        exact hstep p (s + 1) (Or.inl rfl)
      · rw [if_neg hb]
        rcases hf : findCell r with - | ⟨cc, tt⟩
        · exact hstep p (s + 1) (Or.inl rfl)
        · show ((if fetch cc tt = true
              then processLoop fetch (some c) rest (p + 1) s
              else processLoop fetch (some c) rest p (s + 1)).1 : Int)
            ≤ max (p : Int) c
          by_cases hft : fetch cc tt = true
          · rw [if_pos hft]
            exact hstep (p + 1) s (Or.inr rfl)
          · rw [if_neg hft]
            exact hstep p (s + 1) (Or.inl rfl)

/-- C6, counterexample: on the CSV `[["url"], ["", "", ""],
["<contract> 789"]]` with start row 1 and count 1 (the specification's
row-mode scenario), the code counts the header row as skipped too (it is
non-blank but holds no parseable identifier), so the skipped count is 2,
not the 1 the claim states. -/
theorem C6_counterexample :
    process_rows (fun _ _ => true)
      [["url"], ["", "", ""], ["0xb932a70a57673d89f4acffbe830e8ed7f75fb9e0 789"]]
      1 (some 1) = (1, 2) ∧ (2 : Nat) ≠ 1 := by
  constructor
  · decide
  · decide

/-- C6 (amended): in Row mode with start row 1 and count 1, on a CSV of a
header row, one fully blank row, and one row with a valid 0x+40-hex
contract plus token-id text, exactly one item is processed and exactly
two rows are counted as skipped — the blank row and the header row, which
yields no identifier; iteration stops immediately once the processed
count reaches the count limit regardless of remaining rows; and the count
limit bounds only valid processed items, never skipped rows. -/
theorem C6_row_mode_counts (fetch : String → String → Bool)
    (extra : List (List String))
    (hf : fetch "0xb932a70a57673d89f4acffbe830e8ed7f75fb9e0" "789" = true) :
    (process_rows fetch
      ([["url"], ["", "", ""],
        ["0xb932a70a57673d89f4acffbe830e8ed7f75fb9e0 789"]] ++ extra)
      1 (some 1) = (1, 2)) ∧
    (∀ (c : Int) (rows : List (List String)) (p s : Nat), c ≤ (p : Int) →
      processLoop fetch (some c) rows p s = (p, s)) ∧
    (∀ (rows : List (List String)) (sr c : Int), 0 ≤ c →
      ((process_rows fetch rows sr (some c)).1 : Int) ≤ c) := by
  refine ⟨?_, ?_, ?_⟩
  · have hb1 : rowBlank ["url"] = false := by decide
    have hc1 : findCell ["url"] = none := by decide
    have hb2 : rowBlank ["", "", ""] = true := by decide
    have hb3 : rowBlank ["0xb932a70a57673d89f4acffbe830e8ed7f75fb9e0 789"]
        = false := by decide
    have hc3 : findCell ["0xb932a70a57673d89f4acffbe830e8ed7f75fb9e0 789"]
        = some ("0xb932a70a57673d89f4acffbe830e8ed7f75fb9e0", "789") := by
      decide
    show processLoop fetch (some 1)
      (["url"] :: ["", "", ""]
        :: ["0xb932a70a57673d89f4acffbe830e8ed7f75fb9e0 789"] :: extra)
      0 0 = (1, 2)
    rw [show processLoop fetch (some 1)
        (["url"] :: ["", "", ""]
          :: ["0xb932a70a57673d89f4acffbe830e8ed7f75fb9e0 789"] :: extra)
        0 0
      = processLoop fetch (some 1)
        (["", "", ""] :: ["0xb932a70a57673d89f4acffbe830e8ed7f75fb9e0 789"]
          :: extra) 0 1 from by simp [processLoop, hb1, hc1]]
    rw [show processLoop fetch (some 1)
        (["", "", ""] :: ["0xb932a70a57673d89f4acffbe830e8ed7f75fb9e0 789"]
          :: extra) 0 1
      = processLoop fetch (some 1)
        (["0xb932a70a57673d89f4acffbe830e8ed7f75fb9e0 789"] :: extra) 0 2
      from by simp [processLoop, hb2]]
    rw [show processLoop fetch (some 1)
        (["0xb932a70a57673d89f4acffbe830e8ed7f75fb9e0 789"] :: extra) 0 2
      = processLoop fetch (some 1) extra 1 2
      from by simp [processLoop, hb3, hc3, hf]]
    exact processLoop_stop fetch 1 extra 1 2 (by decide)
  · intro c rows p s h
    exact processLoop_stop fetch c rows p s h
  · intro rows sr c hc
    have h := processLoop_processed_le fetch c
      (rows.drop (if sr - 1 < 0 then 0 else sr - 1).toNat) 0 0
    simpa [process_rows, hc] using h

/-- C6 witness: the amended theorem applied at the always-succeeding
fetch oracle, with one extra row after the valid one to exhibit the
early stop, plus concrete instances of the two general conjuncts. -/
theorem C6_witness :
    process_rows (fun _ _ => true)
      [["url"], ["", "", ""], ["0xb932a70a57673d89f4acffbe830e8ed7f75fb9e0 789"],
        ["0xb932a70a57673d89f4acffbe830e8ed7f75fb9e0 790"]]
      1 (some 1) = (1, 2) ∧
    processLoop (fun _ _ => true) (some 0) [["x"]] 0 0 = (0, 0) ∧
    ((process_rows (fun _ _ => true) [["x"], ["y"]] 1 (some 3)).1 : Int) ≤ 3 := by
  refine ⟨?_, ?_, ?_⟩
  · exact (C6_row_mode_counts (fun _ _ => true)
      [["0xb932a70a57673d89f4acffbe830e8ed7f75fb9e0 790"]] rfl).1
  · exact (C6_row_mode_counts (fun _ _ => true) [] rfl).2.1 0 [["x"]] 0 0
      (by decide)
  · exact (C6_row_mode_counts (fun _ _ => true) [] rfl).2.2 [["x"], ["y"]] 1 3
      (by decide)

/-! ### Spreadsheet URL conversion: claim C7 -/

/-- C7, counterexample: with `?gid=5` in the query string and `#gid=7` in
the fragment, the derived CSV export URL carries the fragment gid 7 — the
fragment overrides the query string, contrary to the claimed query-first
precedence. -/
theorem C7_counterexample :
    convert_to_csv_url
      "https://docs.google.com/spreadsheets/d/ABC123/edit?gid=5#gid=7"
      = some "https://docs.google.com/spreadsheets/d/ABC123/export?format=csv&gid=7"
    ∧ ("https://docs.google.com/spreadsheets/d/ABC123/export?format=csv&gid=7"
        : String)
      ≠ "https://docs.google.com/spreadsheets/d/ABC123/export?format=csv&gid=5" := by
  constructor
  · decide
  · decide

/-- C7 (amended): for every spreadsheet share URL from which a
spreadsheet id can be extracted, the derived CSV export URL uses the gid
taken from the URL's fragment when the fragment contains `gid=<digits>`,
else from the query string, else the default `"0"`; in particular when
both a query-string gid and a fragment gid are present, the fragment gid
is the one used. -/
theorem C7_gid_precedence (url sid : String)
    (h : findSpreadsheetId url = some sid) :
    convert_to_csv_url url
      = some ("https://docs.google.com/spreadsheets/d/" ++ sid
          ++ "/export?format=csv&gid=" ++ gid_amended url) := by
  unfold convert_to_csv_url gid_amended
  rw [h]

/-- C7 witness: the amended theorem applied at a URL carrying both a
query gid and a fragment gid. -/
theorem C7_witness :
    convert_to_csv_url
      "https://docs.google.com/spreadsheets/d/ABC123/edit?gid=5#gid=7"
      = some ("https://docs.google.com/spreadsheets/d/" ++ "ABC123"
          ++ "/export?format=csv&gid="
          ++ gid_amended
            "https://docs.google.com/spreadsheets/d/ABC123/edit?gid=5#gid=7") :=
  C7_gid_precedence
    "https://docs.google.com/spreadsheets/d/ABC123/edit?gid=5#gid=7"
    "ABC123" (by decide)

/-! ### Token-id parsing and the request listener: claim C10 -/

theorem pyWs_false_of_hexDig {c : Char} (h : isHexDig c = true) :
    pyWs c = false := by
  by_contra hw
  rw [Bool.not_eq_false] at hw
  unfold pyWs at hw
  simp only [Bool.or_eq_true, decide_eq_true_eq] at hw
  have hcase : c = ' ' ∨ c = '\t' ∨ c = '\n' ∨ c = '\x0d' ∨ c = '\x0b'
      ∨ c = '\x0c' := by tauto
  rcases hcase with h1 | h1 | h1 | h1 | h1 | h1 <;> subst h1 <;>
    exact absurd h (by decide)

theorem stripWsList_eq_self {l : List Char} (h : ∀ c ∈ l, pyWs c = false) :
    stripWsList l = l := by
  unfold stripWsList
  have h1 : l.dropWhile pyWs = l := by
    cases l with
    | nil => rfl
    | cons a t =>
      rw [List.dropWhile_cons_of_neg (by simp [h a (List.mem_cons_self a t)])]
  rw [h1]
  have h2 : l.reverse.dropWhile pyWs = l.reverse := by
    rcases hr : l.reverse with - | ⟨a, t⟩
    · rfl
    · have ha : a ∈ l := by
        rw [← List.mem_reverse, hr]
        exact List.mem_cons_self a t
      rw [List.dropWhile_cons_of_neg (by simp [h a ha])]
  rw [h2, List.reverse_reverse]

theorem mem_stripWsList {c : Char} {l : List Char} (h : c ∈ stripWsList l) :
    c ∈ l := by
  unfold stripWsList at h
  rw [List.mem_reverse] at h
  have h1 := (List.dropWhile_sublist pyWs).mem h
  rw [List.mem_reverse] at h1
  exact (List.dropWhile_sublist pyWs).mem h1

theorem isDigitB_underscore (base : Nat) : isDigitB base '_' = false := by
  unfold isDigitB
  split <;> decide

theorem ne_underscore_of_isDigitB {base : Nat} {c : Char}
    (h : isDigitB base c = true) : ¬ c = '_' := by
  intro e
  subst e
  rw [isDigitB_underscore] at h
  cases h

theorem goDigits_all_digits {base : Nat} :
    ∀ {l : List Char} (acc : Nat), (∀ c ∈ l, isDigitB base c = true) →
      goDigits base l acc
        = some (l.foldl (fun a c => a * base + digitVal c) acc) := by
  intro l
  induction l with
  | nil => intro acc h; rfl
  | cons c rest ih =>
    intro acc h
    unfold goDigits
    rw [if_neg (ne_underscore_of_isDigitB (h c (List.mem_cons_self c rest))),
      if_pos (h c (List.mem_cons_self c rest)),
      ih (acc * base + digitVal c) fun x hx => h x (List.mem_cons_of_mem c hx)]
    rfl

theorem parseDigits_all_digits {base : Nat} {l : List Char} (hne : l ≠ [])
    (h : ∀ c ∈ l, isDigitB base c = true) :
    parseDigits base l = some (digitsVal base l) := by
  rcases l with - | ⟨c, rest⟩
  · exact absurd rfl hne
  · show (if isDigitB base c = true then goDigits base rest (digitVal c)
      else none) = some (digitsVal base (c :: rest))
    rw [if_pos (h c (List.mem_cons_self c rest)),
      goDigits_all_digits (digitVal c) fun x hx => h x (List.mem_cons_of_mem c hx)]
    unfold digitsVal
    rw [List.foldl_cons, Nat.zero_mul, Nat.zero_add]

theorem parseDigits_none {base : Nat} {l : List Char}
    (h : ∀ c ∈ l, isDigitB base c = false) : parseDigits base l = none := by
  rcases l with - | ⟨c, rest⟩
  · rfl
  · show (if isDigitB base c = true then goDigits base rest (digitVal c)
      else none) = none
    rw [if_neg (by simp [h c (List.mem_cons_self c rest)])]

/-- C10 (amended): the token-id parser returns the value of every
0x-prefixed hexadecimal numeral and of every decimal numeral, including
negative ones; it returns `None` for strings containing no digit at all;
but, beyond the claim's wording, the two `int` branches also tolerate
Python's liberal numeral syntax (surrounding whitespace, an explicit `+`
sign, and underscores between digits), so not every other string yields
`None`.  The listener accepts a range request whose token ids are
negative and answers 400 only when the contract parameter is missing or
empty or one of the ids fails to parse. -/
theorem C10_token_id_parsing :
    (∀ ds : List Char, ds ≠ [] → (∀ c ∈ ds, isHexDig c = true) →
      parse_token_id (String.mk ('0' :: 'x' :: ds))
        = some (Int.ofNat (digitsVal 16 ds))) ∧
    (∀ ds : List Char, ds ≠ [] → (∀ c ∈ ds, c.isDigit = true) →
      parse_token_id (String.mk ds) = some (Int.ofNat (digitsVal 10 ds)) ∧
      parse_token_id (String.mk ('-' :: ds))
        = some (-(Int.ofNat (digitsVal 10 ds)))) ∧
    (∀ s : String, (∀ c ∈ s.data, c.isDigit = false) →
      parse_token_id s = none) ∧
    (∀ (co : Option String) (f lv : String),
      strTruthy co = true → (parse_token_id f).isSome = true →
      (parse_token_id lv).isSome = true →
      do_GET co (some f) (some lv) = HttpOutcome.ok) ∧
    (∀ (co : Option String) (f lv : String),
      do_GET co (some f) (some lv) = HttpOutcome.badRequest →
      strTruthy co = false ∨ parse_token_id f = none ∨ parse_token_id lv = none) := by
  refine ⟨?_, ?_, ?_, ?_, ?_⟩
  · intro ds hne hh
    have hpre : ("0x".data.isPrefixOf ('0' :: 'x' :: ds)) = true := by
      simp [List.isPrefixOf]
    unfold parse_token_id
    rw [if_pos hpre]
    unfold pyInt16
    have hsw : stripWsList ('0' :: 'x' :: ds) = '0' :: 'x' :: ds := by
      apply stripWsList_eq_self
      intro c hc
      rcases List.mem_cons.mp hc with rfl | hc2
      · decide
      · rcases List.mem_cons.mp hc2 with rfl | hc3
        · decide
        · exact pyWs_false_of_hexDig (hh c hc3)
    rw [show stripWsList (String.mk ('0' :: 'x' :: ds)).data
      = stripWsList ('0' :: 'x' :: ds) from rfl, hsw]
    show (if ('0' : Char) = '+' then (hexBody ('x' :: ds)).map Int.ofNat
      else if ('0' : Char) = '-' then
        (hexBody ('x' :: ds)).map fun n => -(n : Int)
      else (hexBody ('0' :: 'x' :: ds)).map Int.ofNat)
      = some (Int.ofNat (digitsVal 16 ds))
    rw [if_neg (by decide), if_neg (by decide),
      show hexBody ('0' :: 'x' :: ds) = hexAfterPrefix ds from rfl]
    have hap : hexAfterPrefix ds = parseDigits 16 ds := by
      rcases ds with - | ⟨d, rest⟩
      · rfl
      · show (if d = '_' then parseDigits 16 rest
          else parseDigits 16 (d :: rest)) = parseDigits 16 (d :: rest)
        rw [if_neg (ne_underscore_of_isDigitB
          (show isDigitB 16 d = true from hh d (List.mem_cons_self d rest)))]
    rw [hap, parseDigits_all_digits hne fun c hc =>
      show isDigitB 16 c = true from hh c hc]
    rfl
  · intro ds hne hh
    rcases ds with - | ⟨a, rest⟩
    · exact absurd rfl hne
    constructor
    · have hp : ¬ ("0x".data.isPrefixOf (a :: rest) = true) := by
        intro habs
        rw [List.isPrefixOf_iff_prefix] at habs
        obtain ⟨t, ht⟩ := habs
        have hx : 'x' ∈ a :: rest := by
          rw [← ht]; simp
        exact absurd (hh 'x' hx) (by decide)
      unfold parse_token_id
      rw [if_neg hp]
      unfold pyInt10
      have hsw : stripWsList (a :: rest) = a :: rest :=
        stripWsList_eq_self fun c hc =>
          pyWs_false_of_hexDig (by simp [isHexDig, hh c hc])
      rw [show stripWsList (String.mk (a :: rest)).data
        = stripWsList (a :: rest) from rfl, hsw]
      show (if a = '+' then (parseDigits 10 rest).map Int.ofNat
        else if a = '-' then (parseDigits 10 rest).map fun n => -(n : Int)
        else (parseDigits 10 (a :: rest)).map Int.ofNat)
        = some (Int.ofNat (digitsVal 10 (a :: rest)))
      have ha := hh a (List.mem_cons_self a rest)
      rw [if_neg (by intro e; subst e; exact absurd ha (by decide)),
        if_neg (by intro e; subst e; exact absurd ha (by decide)),
        parseDigits_all_digits (by intro e; cases e) fun c hc =>
          show isDigitB 10 c = true from hh c hc]
      rfl
    · have hp : ¬ ("0x".data.isPrefixOf ('-' :: a :: rest) = true) := by
        intro habs
        rw [List.isPrefixOf_iff_prefix] at habs
        obtain ⟨t, ht⟩ := habs
        have h3 := congrArg (fun l => l.head?) ht
        simp at h3
      unfold parse_token_id
      rw [if_neg hp]
      unfold pyInt10
      have hsw : stripWsList ('-' :: a :: rest) = '-' :: a :: rest := by
        apply stripWsList_eq_self
        intro c hc
        rcases List.mem_cons.mp hc with rfl | hc2
        · decide
        · exact pyWs_false_of_hexDig (by simp [isHexDig, hh c hc2])
      rw [show stripWsList (String.mk ('-' :: a :: rest)).data
        = stripWsList ('-' :: a :: rest) from rfl, hsw]
      show (if ('-' : Char) = '+' then (parseDigits 10 (a :: rest)).map Int.ofNat
        else if ('-' : Char) = '-' then
          (parseDigits 10 (a :: rest)).map fun n => -(n : Int)
        else (parseDigits 10 ('-' :: a :: rest)).map Int.ofNat)
        = some (-(Int.ofNat (digitsVal 10 (a :: rest))))
      rw [if_neg (by decide), if_pos rfl,
        parseDigits_all_digits (by intro e; cases e) fun c hc =>
          show isDigitB 10 c = true from hh c hc]
      rfl
  · intro s hnd
    have hp : ¬ ("0x".data.isPrefixOf s.data = true) := by
      intro habs
      rw [List.isPrefixOf_iff_prefix] at habs
      obtain ⟨t, ht⟩ := habs
      have h0 : '0' ∈ s.data := by
        rw [← ht]; simp
      exact absurd (hnd '0' h0) (by decide)
    unfold parse_token_id
    rw [if_neg hp]
    unfold pyInt10
    have hmem : ∀ c ∈ stripWsList s.data, c.isDigit = false :=
      fun c hc => hnd c (mem_stripWsList hc)
    rcases hsw : stripWsList s.data with - | ⟨a, t⟩
    · rfl
    · have hmem' : ∀ c ∈ a :: t, c.isDigit = false := by
        rw [← hsw]; exact hmem
      show (if a = '+' then (parseDigits 10 t).map Int.ofNat
        else if a = '-' then (parseDigits 10 t).map fun n => -(n : Int)
        else (parseDigits 10 (a :: t)).map Int.ofNat) = none
      have hnone : parseDigits 10 t = none :=
        parseDigits_none fun c hc =>
          show Char.isDigit c = false from
            hmem' c (List.mem_cons_of_mem a hc)
      have hnone' : parseDigits 10 (a :: t) = none :=
        parseDigits_none fun c hc =>
          show Char.isDigit c = false from hmem' c hc
      by_cases ha : a = '+'
      · rw [if_pos ha, hnone]; rfl
      · rw [if_neg ha]
        by_cases hm : a = '-'
        · rw [if_pos hm, hnone]; rfl
        · rw [if_neg hm, hnone']; rfl
  · intro co f lv hc hf hl
    show (if (strTruthy co && (parse_token_id f).isSome
        && (parse_token_id lv).isSome) = true
      then HttpOutcome.ok else HttpOutcome.badRequest) = HttpOutcome.ok
    rw [if_pos (by rw [hc, hf, hl]; rfl)]
  · intro co f lv h
    rcases hpf : parse_token_id f with - | v
    · exact Or.inr (Or.inl rfl)
    · rcases hpl : parse_token_id lv with - | w
      · exact Or.inr (Or.inr rfl)
      · left
        rcases hco : strTruthy co with - | -
        · rfl
        · exfalso
          have hok : do_GET co (some f) (some lv) = HttpOutcome.ok := by
            show (if (strTruthy co && (parse_token_id f).isSome
                && (parse_token_id lv).isSome) = true
              then HttpOutcome.ok else HttpOutcome.badRequest) = HttpOutcome.ok
            rw [if_pos (by rw [hco, hpf, hpl]; rfl)]
          rw [hok] at h
          cases h

/-- C10, counterexample: `"1_2"` is neither a 0x-prefixed hexadecimal
string nor a decimal integer numeral, yet the parser accepts it (Python's
`int` allows underscores between digits), returning 12 instead of the
`None` the claim requires. -/
theorem C10_counterexample :
    parse_token_id "1_2" = some 12 ∧ parse_token_id "1_2" ≠ none := by
  constructor
  · decide
  · decide

/-- C10 witness: the amended theorem applied at the hex numeral `0x1A`,
the decimal numerals `29934` and `-5`, the digit-free string `garbage`,
and a concrete accepted negative-range request plus a rejected one. -/
theorem C10_witness :
    parse_token_id (String.mk ('0' :: 'x' :: ['1', 'A'])) = some 26 ∧
    parse_token_id (String.mk ['2', '9']) = some 29 ∧
    parse_token_id (String.mk ('-' :: ['5'])) = some (-5) ∧
    parse_token_id "garbage" = none ∧
    do_GET (some "0xabc") (some "-3") (some "-1") = HttpOutcome.ok ∧
    (strTruthy (some "") = false ∨ parse_token_id "1" = none ∨
      parse_token_id "1" = none) := by
  obtain ⟨h1, h2, h3, h4, h5⟩ := C10_token_id_parsing
  refine ⟨?_, ?_, ?_, ?_, ?_, ?_⟩
  · have := h1 ['1', 'A'] (by decide) (by decide)
    rw [this]; decide
  · have := (h2 ['2', '9'] (by decide) (by decide)).1
    rw [this]; decide
  · have := (h2 ['5'] (by decide) (by decide)).2
    rw [this]; decide
  · exact h3 "garbage" (by decide)
  · exact h4 (some "0xabc") "-3" "-1" (by decide) (by decide) (by decide)
  · exact h5 (some "") "1" "1" (by decide)

end NFTExtractor
